import Mathlib

/-!
Shallow embedding of the headcrab Linux debugging library
(src/target/linux.rs and src/symbol/sym.rs), restricted to the parts the
verified properties are about: the x86-64 hardware-breakpoint manager, the
remote-syscall trampoline, launch/attach, the memory-map permission parser,
thread name resolution, and the symbol demangling cache.

Machine integers (u64 debug-register values) are modelled as Nat with
explicit masking to 64 bits where the Rust code uses wrapping complement.
The tracee's debug-register user area (reached through PTRACE_PEEKUSER /
PTRACE_POKEUSER at offsets DEBUG_REG_OFFSET + 8 * k) is modelled as a
function from the register index k to its value.  All theorems assume the
tracer primitives themselves succeed, which is how the claims are phrased.
-/

namespace Headcrab

/-- All-ones mask of a 64-bit word; `x &&& (mask64 ^^^ m)` is the Nat
rendering of the Rust u64 expression `x & !m`. -/
def mask64 : Nat := 2 ^ 64 - 1

/-- Rust `HardwareBreakpointType` from the hardware_breakpoint module. -/
inductive HardwareBreakpointType where
  | execute
  | write
  | readWrite

/-- Rust `HardwareBreakpointSize` from the hardware_breakpoint module. -/
inductive HardwareBreakpointSize where
  | b1
  | b2
  | b4
  | b8

/-- Rust `HardwareBreakpoint { addr, ty, size }`. -/
structure HardwareBreakpoint where
  addr : Nat
  ty : HardwareBreakpointType
  size : HardwareBreakpointSize

deriving instance DecidableEq for HardwareBreakpointType
deriving instance DecidableEq for HardwareBreakpointSize
deriving instance DecidableEq for HardwareBreakpoint

/-- Modelled from the spec: the hardware_breakpoint module is not in the
sources; per the encoding reference, the DR7 R/W field per slot is
00 execute, 01 write, 11 read/write. -/
def HardwareBreakpoint.rwEncoding : HardwareBreakpointType → Nat
  | .execute => 0
  | .write => 1
  | .readWrite => 3

/-- Modelled from the spec: R/W field occupies bits 16+4i and 17+4i. -/
def HardwareBreakpoint.rw_bits (bp : HardwareBreakpoint) (index : Nat) : Nat :=
  HardwareBreakpoint.rwEncoding bp.ty <<< (16 + 4 * index)

/-- Modelled from the spec: the DR7 LEN field per slot is 00 1B, 01 2B,
10 8B, 11 4B. -/
def HardwareBreakpoint.sizeEncoding : HardwareBreakpointSize → Nat
  | .b1 => 0
  | .b2 => 1
  | .b8 => 2
  | .b4 => 3

/-- Modelled from the spec: LEN field occupies bits 18+4i and 19+4i. -/
def HardwareBreakpoint.size_bits (bp : HardwareBreakpoint) (index : Nat) : Nat :=
  HardwareBreakpoint.sizeEncoding bp.size <<< (18 + 4 * index)

/-- Modelled from the spec: DR7 bit mask for slot i covers bits 2i and
4i+16 .. 4i+19. -/
def HardwareBreakpoint.bit_mask (index : Nat) : Nat :=
  (1 <<< (2 * index)) ||| (15 <<< (4 * index + 16))

/-- The error variants of the hardware_breakpoint module used by linux.rs. -/
inductive HardwareBreakpointError where
  | noEmptyWatchpoint
  | doesNotExist (slot : Nat)
  | unsupportedPlatform

deriving instance DecidableEq for HardwareBreakpointError

/-- Value of `SUPPORTED_HARDWARE_BREAKPOINTS` on x86-64. -/
def SUPPORTED_HARDWARE_BREAKPOINTS : Nat := 4

/-- Rust `LinuxTarget`: a pid together with the fixed-size slot table
`hardware_breakpoints: [Option<HardwareBreakpoint>; 4]`. -/
structure LinuxTarget where
  pid : Nat
  hardware_breakpoints : List (Option HardwareBreakpoint)
  hb_len : hardware_breakpoints.length = SUPPORTED_HARDWARE_BREAKPOINTS

/-- The tracee's debug-register user area: index k holds the value at
offset DEBUG_REG_OFFSET + 8 * k (k in 0..=3 are DR0..DR3, 6 is DR6,
7 is DR7). -/
def URegs : Type := Nat → Nat

/-- PTRACE_PEEKUSER at debug-register index k. -/
def peekuser (r : URegs) (k : Nat) : Nat := r k

/-- PTRACE_POKEUSER at debug-register index k. -/
def pokeuser (r : URegs) (k v : Nat) : URegs :=
  fun j => if j = k then v else r j

/-- Rust `LinuxTarget::new`: the given pid and a default (all-empty) slot table. -/
def LinuxTarget.new (pid : Nat) : LinuxTarget :=
  ⟨pid, List.replicate 4 none, rfl⟩

/-- Replace slot i of the table (the Rust `self.hardware_breakpoints[index] = v`). -/
def LinuxTarget.setSlot (t : LinuxTarget) (i : Nat) (v : Option HardwareBreakpoint) :
    LinuxTarget :=
  ⟨t.pid, t.hardware_breakpoints.set i v, by rw [List.length_set]; exact t.hb_len⟩

/-- The scan `.iter().position(|w| w.is_none())` over the slot table. -/
def position_none : List (Option HardwareBreakpoint) → Option Nat
  | [] => none
  | w :: rest =>
      if w.isNone then some 0 else (position_none rest).map (· + 1)

/-- Rust `find_empty_watchpoint`. -/
def find_empty_watchpoint (t : LinuxTarget) : Option Nat :=
  position_none t.hardware_breakpoints

/-- Outcome of `set_hardware_breakpoint`: Ok(index) with the new target and
register state, an early-returned error (target and registers untouched),
or the `panic!("Invalid debug register state")` branch. -/
inductive SetOutcome where
  | ok (index : Nat) (t : LinuxTarget) (r : URegs)
  | err (e : HardwareBreakpointError) (t : LinuxTarget) (r : URegs)
  | panicked

/-- Rust `LinuxTarget::set_hardware_breakpoint` (x86-64 branch). -/
def set_hardware_breakpoint (t : LinuxTarget) (r : URegs)
    (breakpoint : HardwareBreakpoint) : SetOutcome :=
  match find_empty_watchpoint t with
  | none => .err .noEmptyWatchpoint t r
  | some index =>
      let rw_bits : Nat := breakpoint.rw_bits index
      let size_bits : Nat := breakpoint.size_bits index
      let enable_bit : Nat := 1 <<< (2 * index)
      let bit_mask : Nat := HardwareBreakpoint.bit_mask index
      let dr7 : Nat := peekuser r 7
      if dr7 &&& (1 <<< (2 * index)) ≠ 0 then
        .panicked
      else
        let dr7n : Nat := (dr7 &&& (mask64 ^^^ bit_mask)) ||| (enable_bit ||| rw_bits ||| size_bits)
        let r1 := pokeuser r index breakpoint.addr
        let r2 := pokeuser r1 7 dr7n
        let r3 := pokeuser r2 6 0
        .ok index (t.setSlot index (some breakpoint)) r3

/-- Outcome of `clear_hardware_breakpoint`: Ok(breakpoint) with the new
states, an early-returned error, or the out-of-bounds indexing panic. -/
inductive ClearOutcome where
  | ok (bp : HardwareBreakpoint) (t : LinuxTarget) (r : URegs)
  | err (e : HardwareBreakpointError) (t : LinuxTarget) (r : URegs)
  | panicked

/-- Rust `LinuxTarget::clear_hardware_breakpoint` (x86-64 branch); indexing
`self.hardware_breakpoints[index]` out of bounds panics. -/
def clear_hardware_breakpoint (t : LinuxTarget) (r : URegs) (index : Nat) :
    ClearOutcome :=
  if h : index < t.hardware_breakpoints.length then
    match t.hardware_breakpoints.get ⟨index, h⟩ with
    | none => .err (.doesNotExist index) t r
    | some bp =>
        let dr7 : Nat := peekuser r 7
        let dr6 : Nat := peekuser r 6
        let dr7n : Nat := dr7 &&& (mask64 ^^^ HardwareBreakpoint.bit_mask index)
        let dr6n : Nat := dr6 &&& (mask64 ^^^ (1 <<< index))
        let r1 := pokeuser r 7 dr7n
        let r2 := pokeuser r1 6 dr6n
        .ok bp (t.setSlot index none) r2
  else
    .panicked

/-- The Rust loop condition in `is_hardware_breakpoint_triggered`:
`dr7 & (1 << i) != 0 && self.hardware_breakpoints[i].is_some()`. -/
def trigCond (t : LinuxTarget) (dr7v i : Nat) : Bool :=
  (dr7v &&& (1 <<< i) != 0) && (t.hardware_breakpoints.getD i none).isSome

/-- The `for i in 0..SUPPORTED_HARDWARE_BREAKPOINTS` loop body of
`is_hardware_breakpoint_triggered`, over the remaining indices. -/
def triggered_loop (t : LinuxTarget) (r : URegs) (dr7v : Nat) :
    List Nat → Option Nat × URegs
  | [] => (none, r)
  | i :: rest =>
      if trigCond t dr7v i then
        (some i, pokeuser r 6 (dr7v &&& (mask64 ^^^ (1 <<< i))))
      else
        triggered_loop t r dr7v rest

/-- Rust `LinuxTarget::is_hardware_breakpoint_triggered` (x86-64 branch).  The
source stores the value peeked from DR6's offset in a variable named
`dr7`; the peek and the poke both use offset DEBUG_REG_OFFSET + 6 * 8. -/
def is_hardware_breakpoint_triggered (t : LinuxTarget) (r : URegs) :
    Option Nat × URegs :=
  let dr7v : Nat := peekuser r 6
  triggered_loop t r dr7v (List.range SUPPORTED_HARDWARE_BREAKPOINTS)

/-- One step of an arbitrary set/clear sequence on a target: the target and
register state after the operation (an early-returned error leaves both as
they were; a panic aborts, so the pre-panic state is kept). -/
inductive HWOp where
  | set (bp : HardwareBreakpoint)
  | clear (index : Nat)

/-- Apply one hardware-breakpoint operation to a (target, registers) pair. -/
def applyOp (s : LinuxTarget × URegs) (op : HWOp) : LinuxTarget × URegs :=
  match op with
  | .set bp =>
      match set_hardware_breakpoint s.1 s.2 bp with
      | .ok _ t r => (t, r)
      | .err _ t r => (t, r)
      | .panicked => s
  | .clear i =>
      match clear_hardware_breakpoint s.1 s.2 i with
      | .ok _ t r => (t, r)
      | .err _ t r => (t, r)
      | .panicked => s

/-- Apply a sequence of hardware-breakpoint operations. -/
def applyOps (s : LinuxTarget × URegs) (ops : List HWOp) : LinuxTarget × URegs :=
  ops.foldl applyOp s

/-- Number of simultaneously active (occupied) breakpoint slots. -/
def activeCount (t : LinuxTarget) : Nat :=
  (t.hardware_breakpoints.filter Option.isSome).length

/-!  Remote syscall injection (`LinuxTarget::syscall`). -/

/-- The fields of `libc::user_regs_struct` the trampoline touches, plus one
field standing for all the remaining registers of the struct. -/
structure UserRegs where
  rax : Nat
  rdi : Nat
  rsi : Nat
  rdx : Nat
  r10 : Nat
  r8 : Nat
  r9 : Nat
  rip : Nat
  other : Nat

deriving instance DecidableEq for UserRegs

/-- Debuggee machine state: registers plus the word read/written by
`ptrace::read` / `ptrace::write` at each address. -/
structure Machine where
  regs : UserRegs
  mem : Nat → Nat

/-- Effect of `ptrace::write`: replace the word at one address. -/
def pokeWord (mem : Nat → Nat) (a v : Nat) : Nat → Nat :=
  fun x => if x = a then v else mem x

/-- The literal the source pokes at rip: `0x050f /* x86_64 syscall */`. -/
def SYSCALL_INSN : Nat := 0x050f

/-- The register assignment of the trampoline: syscall number into rax and
the six arguments into rdi, rsi, rdx, r10, r8, r9. -/
def syscall_regs (orig : UserRegs) (num a1 a2 a3 a4 a5 a6 : Nat) : UserRegs :=
  { orig with rax := num, rdi := a1, rsi := a2, rdx := a3, r10 := a4, r8 := a5, r9 := a6 }

/-- Debuggee state after the trampoline wrote the registers and poked the
syscall instruction word at rip, just before the single-step. -/
def syscall_armed (m : Machine) (num a1 a2 a3 a4 a5 a6 : Nat) : Machine :=
  let new_regs := syscall_regs m.regs num a1 a2 a3 a4 a5 a6
  { regs := new_regs, mem := pokeWord m.mem new_regs.rip SYSCALL_INSN }

/-- Rust `LinuxTarget::syscall`, parametrised by the kernel's effect `stepK` of
`ptrace::step` + `waitpid` on the debuggee, assuming every tracer primitive
succeeds: returns the post-step rax and the final debuggee state after the
old instruction word and the original registers are restored. -/
def syscall (stepK : Machine → Machine) (m : Machine)
    (num a1 a2 a3 a4 a5 a6 : Nat) : Nat × Machine :=
  let orig_regs := m.regs
  let new_regs := syscall_regs m.regs num a1 a2 a3 a4 a5 a6
  let old_inst := m.mem new_regs.rip
  let stepped := stepK (syscall_armed m num a1 a2 a3 a4 a5 a6)
  let res := stepped.regs.rax
  (res, { regs := orig_regs, mem := pokeWord stepped.mem new_regs.rip old_inst })

/-!  Launch / attach (`LinuxTarget::launch`, `LinuxTarget::attach`).  The
ptrace calls these issue are recorded as an event trace; arming the
kill-on-exit option is `setoptions(PTRACE_O_EXITKILL)`. -/

/-- Rust `AttachOptions`. -/
structure AttachOptions where
  kill_on_exit : Bool

/-- The ptrace side effects of launch/attach that the claims observe. -/
inductive TraceEvent where
  | setOptionsExitKill

deriving instance DecidableEq for TraceEvent

/-- Rust `LinuxTarget::kill_on_exit`: issues `setoptions(PTRACE_O_EXITKILL)`. -/
def kill_on_exit_events : List TraceEvent := [.setOptionsExitKill]

/-- Rust `LinuxTarget::launch`, given the pid and initial wait-status produced by
`unix::launch`: builds the target, then calls `kill_on_exit` unconditionally. -/
def launch (pid status : Nat) : (LinuxTarget × Nat) × List TraceEvent :=
  ((LinuxTarget.new pid, status), kill_on_exit_events)

/-- Rust `LinuxTarget::attach`, given the initial wait-status produced by
`unix::attach`: builds the target, then calls `kill_on_exit` only when
`options.kill_on_exit` is set. -/
def attach (pid status : Nat) (options : AttachOptions) :
    (LinuxTarget × Nat) × List TraceEvent :=
  ((LinuxTarget.new pid, status),
    if options.kill_on_exit then kill_on_exit_events else [])

/-!  Memory-map permission parsing (`LinuxTarget::memory_maps`). -/

/-- One `.next()` call on the `chars()` iterator of the perms string. -/
def permsNext : List Char → Option Char × List Char
  | [] => (none, [])
  | c :: rest => (some c, rest)

/-- The per-entry flag derivation of `memory_maps`: four successive
`perms.next() == Some(c)` comparisons against r, w, x, p. -/
def map_perm_flags (perms : List Char) : Bool × Bool × Bool × Bool :=
  let p1 := permsNext perms
  let p2 := permsNext p1.2
  let p3 := permsNext p2.2
  let p4 := permsNext p3.2
  (p1.1 == some 'r', p2.1 == some 'w', p3.1 == some 'x', p4.1 == some 'p')

/-!  Thread name resolution (`LinuxThread::name`). -/

/-- The `procfs::ProcError` variants, as matched by `LinuxThread::name`. -/
inductive ProcError where
  | notFound
  | permissionDenied
  | incomplete
  | ioError
  | other

deriving instance DecidableEq for ProcError

/-- The part of a task's stat the code consumes: the `comm` field. -/
structure TaskStat where
  comm : String

/-- Rust `LinuxThread::name`, as a function of the result of `self.task.stat()`:
Ok(Some(comm)) on success, Ok(None) on NotFound or Incomplete, any other
error propagated unchanged. -/
def LinuxThread.name (stat : Except ProcError TaskStat) :
    Except ProcError (Option String) :=
  match stat with
  | .ok t_stat => .ok (some t_stat.comm)
  | .error .notFound => .ok none
  | .error .incomplete => .ok none
  | .error e => .error e

/-!  Symbol demangling cache (`Symbol::name` in src/symbol/sym.rs). -/

/-- Rust `Symbol` with its data lifetime erased: the interior-mutable demangled-name cell and the name
of the underlying object-file symbol (the only part of it these claims
consume). -/
structure Symbol where
  demangled_name : Option String
  sym_name : Option String

deriving instance DecidableEq for Symbol

/-- The `From` conversion from an object-file symbol: a fresh symbol with an empty cache. -/
def Symbol.fromObject (sym_name : Option String) : Symbol :=
  ⟨none, sym_name⟩

/-- Rust `Symbol::orig_name`. -/
def Symbol.origName (s : Symbol) : Option String := s.sym_name

/-- Rust `Symbol::name`, parametrised by the external `rustc_demangle::demangle`
function; returns the result together with the symbol after the call (the
`Cell` write made explicit). -/
def Symbol.name (demangle : String → String) (s : Symbol) :
    Option String × Symbol :=
  match s.sym_name with
  | none => (none, s)
  | some mangled =>
      match s.demangled_name with
      | some n => (some n, s)
      | none => (some (demangle mangled), ⟨some (demangle mangled), s.sym_name⟩)

/-!  Concrete states used to instantiate the theorems below. -/

/-- A concrete 1-byte write breakpoint. -/
def bp0 : HardwareBreakpoint := ⟨0x1000, .write, .b1⟩

/-- A concrete all-zero debug-register file. -/
def r0 : URegs := fun _ => 0

/-- A freshly created target (all slots empty). -/
def t0 : LinuxTarget := LinuxTarget.new 1

/-- The target after `set_hardware_breakpoint t0 r0 bp0` put bp0 in slot 0. -/
def tA : LinuxTarget := t0.setSlot 0 (some bp0)

/-- The register file after that same call. -/
def rA : URegs :=
  pokeuser (pokeuser (pokeuser r0 0 bp0.addr) 7
      ((peekuser r0 7 &&& (mask64 ^^^ HardwareBreakpoint.bit_mask 0)) |||
        ((1 <<< (2 * 0)) ||| bp0.rw_bits 0 ||| bp0.size_bits 0)))
    6 0

/-- A target whose four slots are all occupied. -/
def tFull : LinuxTarget := ⟨2, [some bp0, some bp0, some bp0, some bp0], rfl⟩

/-- A register file whose DR6 value is 6 (status bits 1 and 2 set). -/
def rT : URegs := fun k => if k = 6 then 6 else 0

/-- Like rT on DR6 but different everywhere else. -/
def rT2 : URegs := fun k => if k = 6 then 6 else 99

/-- A target with slots 1 and 2 occupied and slots 0 and 3 empty. -/
def tB : LinuxTarget := ⟨3, [none, some bp0, some bp0, none], rfl⟩

/-- A concrete stopped debuggee with rip = 0x400000 and zeroed memory. -/
def m0 : Machine := ⟨⟨0, 0, 0, 0, 0, 0, 0, 4194304, 7⟩, fun _ => 0⟩

end Headcrab

namespace Headcrab

/-! Theorems. -/

/-- If the slot scan returns `some i`, then `i` is in range, slot `i` is
empty, and every slot before `i` is occupied. -/
theorem position_none_some_spec :
    ∀ (l : List (Option HardwareBreakpoint)) (i : Nat), position_none l = some i →
      i < l.length ∧ l.getD i none = none ∧ ∀ j, j < i → (l.getD j none).isSome
  | [], i, h => by simp [position_none] at h
  | w :: rest, i, h => by
      cases w with
      | none =>
          simp [position_none] at h
          subst h
          exact ⟨by simp, rfl, fun j hj => absurd hj (by omega)⟩
      | some b =>
          simp [position_none] at h
          obtain ⟨i0, h0, rfl⟩ := h
          have ih := position_none_some_spec rest i0 h0
          refine ⟨by simpa using Nat.succ_lt_succ ih.1, by simpa using ih.2.1, ?_⟩
          intro j hj
          cases j with
          | zero => simp [List.getD]
          | succ j0 => simpa using ih.2.2 j0 (by omega)

/-- If every slot is occupied, the slot scan fails. -/
theorem position_none_eq_none :
    ∀ (l : List (Option HardwareBreakpoint)),
      (∀ j, j < l.length → (l.getD j none).isSome) → position_none l = none
  | [], _ => rfl
  | w :: rest, h => by
      cases w with
      | none =>
          have h0 := h 0 (by simp)
          simp [List.getD] at h0
      | some b =>
          simp [position_none]
          exact position_none_eq_none rest
            (fun j hj => by simpa using h (j + 1) (by simpa using Nat.succ_lt_succ hj))

/-- The slot table always has exactly four slots, so at most four
breakpoints are active. -/
theorem activeCount_le_four (t : LinuxTarget) :
    activeCount t ≤ SUPPORTED_HARDWARE_BREAKPOINTS :=
  le_trans (List.length_filter_le _ _) (le_of_eq t.hb_len)

/-- Inversion of a successful `set_hardware_breakpoint`: the returned index
is the first empty slot, and exactly that slot of the table was filled. -/
theorem set_ok_inversion (t : LinuxTarget) (r : URegs) (bp : HardwareBreakpoint)
    (i : Nat) (t2 : LinuxTarget) (r2 : URegs)
    (h : set_hardware_breakpoint t r bp = SetOutcome.ok i t2 r2) :
    find_empty_watchpoint t = some i ∧
    i < SUPPORTED_HARDWARE_BREAKPOINTS ∧
    t.hardware_breakpoints.getD i none = none ∧
    (∀ j, j < i → (t.hardware_breakpoints.getD j none).isSome) ∧
    t2.hardware_breakpoints = t.hardware_breakpoints.set i (some bp) ∧
    t2.pid = t.pid := by
  unfold set_hardware_breakpoint at h
  split at h
  · exact absurd h (by simp)
  next idx hf =>
    dsimp only at h
    split at h
    · exact absurd h (by simp)
    next hc =>
      cases h
      have hs := position_none_some_spec t.hardware_breakpoints i hf
      refine ⟨hf, ?_, hs.2.1, hs.2.2, rfl, rfl⟩
      rw [← t.hb_len]
      exact hs.1

/-- When every slot is occupied, `set_hardware_breakpoint` returns the
NoEmptyWatchpoint error and leaves target and registers untouched. -/
theorem set_full_err (t : LinuxTarget) (r : URegs) (bp : HardwareBreakpoint)
    (h : ∀ j, j < SUPPORTED_HARDWARE_BREAKPOINTS →
      (t.hardware_breakpoints.getD j none).isSome) :
    set_hardware_breakpoint t r bp =
      SetOutcome.err HardwareBreakpointError.noEmptyWatchpoint t r := by
  have hf : find_empty_watchpoint t = none :=
    position_none_eq_none _ (fun j hj => h j (by rw [← t.hb_len]; exact hj))
  unfold set_hardware_breakpoint
  rw [show find_empty_watchpoint t = none from hf]

/-- A successful `clear_hardware_breakpoint` on an occupied slot. -/
theorem clear_ok_of_get (t : LinuxTarget) (r : URegs) (i : Nat)
    (h : i < t.hardware_breakpoints.length) (bp : HardwareBreakpoint)
    (hget : t.hardware_breakpoints.get ⟨i, h⟩ = some bp) :
    clear_hardware_breakpoint t r i =
      ClearOutcome.ok bp (t.setSlot i none)
        (pokeuser (pokeuser r 7 (peekuser r 7 &&& (mask64 ^^^ HardwareBreakpoint.bit_mask i)))
          6 (peekuser r 6 &&& (mask64 ^^^ (1 <<< i)))) := by
  unfold clear_hardware_breakpoint
  rw [dif_pos h, hget]

/-- Calling `clear_hardware_breakpoint` on an in-range empty slot fails with
DoesNotExist and leaves target and registers untouched. -/
theorem clear_empty_err (t : LinuxTarget) (r : URegs) (i : Nat)
    (hi : i < SUPPORTED_HARDWARE_BREAKPOINTS)
    (hempty : t.hardware_breakpoints.getD i none = none) :
    clear_hardware_breakpoint t r i =
      ClearOutcome.err (HardwareBreakpointError.doesNotExist i) t r := by
  have h : i < t.hardware_breakpoints.length := by rw [t.hb_len]; exact hi
  have hget : t.hardware_breakpoints.get ⟨i, h⟩ = none := by
    rw [List.getD_eq_getElem?_getD, List.getElem?_eq_getElem h] at hempty
    simpa using hempty
  unfold clear_hardware_breakpoint
  rw [dif_pos h, hget]

/-- C1: over every sequence of set/clear operations at most
N_DR = 4 breakpoints are simultaneously active; a successful
`set_hardware_breakpoint` records the breakpoint in the first (lowest)
empty slot and returns that index; with all four slots occupied it fails
with NoEmptyWatchpoint and modifies neither the slot table nor the
registers. -/
theorem set_hardware_breakpoint_first_empty_slot
    (t : LinuxTarget) (r : URegs) (bp : HardwareBreakpoint) (ops : List HWOp) :
    activeCount (applyOps (t, r) ops).1 ≤ SUPPORTED_HARDWARE_BREAKPOINTS ∧
    (∀ i t2 r2, set_hardware_breakpoint t r bp = SetOutcome.ok i t2 r2 →
      i < SUPPORTED_HARDWARE_BREAKPOINTS ∧
      t.hardware_breakpoints.getD i none = none ∧
      (∀ j, j < i → (t.hardware_breakpoints.getD j none).isSome) ∧
      t2.hardware_breakpoints = t.hardware_breakpoints.set i (some bp)) ∧
    ((∀ j, j < SUPPORTED_HARDWARE_BREAKPOINTS →
        (t.hardware_breakpoints.getD j none).isSome) →
      set_hardware_breakpoint t r bp =
        SetOutcome.err HardwareBreakpointError.noEmptyWatchpoint t r) := by
  refine ⟨activeCount_le_four _, ?_, set_full_err t r bp⟩
  intro i t2 r2 h
  obtain ⟨_, hi, hempty, hbefore, hslots, _⟩ := set_ok_inversion t r bp i t2 r2 h
  exact ⟨hi, hempty, hbefore, hslots⟩

/-- Witness for C1: on a fresh target the breakpoint lands in slot 0, and
on a full target the call fails with NoEmptyWatchpoint. -/
theorem set_hardware_breakpoint_first_empty_slot_witness :
    (0 < SUPPORTED_HARDWARE_BREAKPOINTS ∧
      t0.hardware_breakpoints.getD 0 none = none ∧
      (∀ j, j < 0 → (t0.hardware_breakpoints.getD j none).isSome) ∧
      tA.hardware_breakpoints = t0.hardware_breakpoints.set 0 (some bp0)) ∧
    set_hardware_breakpoint tFull r0 bp0 =
      SetOutcome.err HardwareBreakpointError.noEmptyWatchpoint tFull r0 :=
  ⟨(set_hardware_breakpoint_first_empty_slot t0 r0 bp0 []).2.1 0 tA rA rfl,
   (set_hardware_breakpoint_first_empty_slot tFull r0 bp0 []).2.2 (by decide)⟩

/-- C2: a successful set followed by a clear of the returned slot returns
exactly the breakpoint that was set and leaves that slot empty (all other
slots as before the set); clearing an in-range empty slot fails with
DoesNotExist(slot) and changes no slot. -/
theorem set_clear_roundtrip (t : LinuxTarget) (r : URegs) (bp : HardwareBreakpoint) :
    (∀ i t2 r2, set_hardware_breakpoint t r bp = SetOutcome.ok i t2 r2 →
      ∃ t3 r3, clear_hardware_breakpoint t2 r2 i = ClearOutcome.ok bp t3 r3 ∧
        t3.hardware_breakpoints.getD i none = none ∧
        ∀ j, j ≠ i →
          t3.hardware_breakpoints.getD j none = t.hardware_breakpoints.getD j none) ∧
    (∀ i, i < SUPPORTED_HARDWARE_BREAKPOINTS →
      t.hardware_breakpoints.getD i none = none →
      clear_hardware_breakpoint t r i =
        ClearOutcome.err (HardwareBreakpointError.doesNotExist i) t r) := by
  constructor
  · intro i t2 r2 h
    obtain ⟨_, hi, _, _, hslots, _⟩ := set_ok_inversion t r bp i t2 r2 h
    have hlen : i < t2.hardware_breakpoints.length := by rw [t2.hb_len]; exact hi
    have hget : t2.hardware_breakpoints.get ⟨i, hlen⟩ = some bp := by
      simp [List.get_eq_getElem, hslots]
    refine ⟨t2.setSlot i none, _, clear_ok_of_get t2 r2 i hlen bp hget, ?_, ?_⟩
    · show ((t2.hardware_breakpoints.set i none).getD i none) = none
      have : i < (t2.hardware_breakpoints.set i none).length := by
        rw [List.length_set]; exact hlen
      rw [List.getD_eq_getElem?_getD, List.getElem?_eq_getElem this]
      simp
    · intro j hj
      show ((t2.hardware_breakpoints.set i none).getD j none) = _
      rw [hslots]
      rcases Nat.lt_or_ge j t.hardware_breakpoints.length with hjl | hjl
      · simp [List.getD_eq_getElem?_getD, List.getElem?_set_ne (Ne.symm hj)]
      · have h1 : ((t.hardware_breakpoints.set i (some bp)).set i none).length ≤ j := by
          rw [List.length_set, List.length_set]; exact hjl
        have h2 : t.hardware_breakpoints.length ≤ j := hjl
        rw [List.getD_eq_getElem?_getD, List.getD_eq_getElem?_getD,
          List.getElem?_eq_none h1, List.getElem?_eq_none h2]
  · exact fun i hi hempty => clear_empty_err t r i hi hempty

/-- Witness for C2: clearing slot 0 right after filling it returns bp0 and
empties the slot; clearing the empty slot 2 of a fresh target fails with
DoesNotExist(2). -/
theorem set_clear_roundtrip_witness :
    (∃ t3 r3, clear_hardware_breakpoint tA rA 0 = ClearOutcome.ok bp0 t3 r3 ∧
      t3.hardware_breakpoints.getD 0 none = none ∧
      ∀ j, j ≠ 0 →
        t3.hardware_breakpoints.getD j none = t0.hardware_breakpoints.getD j none) ∧
    clear_hardware_breakpoint t0 r0 2 =
      ClearOutcome.err (HardwareBreakpointError.doesNotExist 2) t0 r0 :=
  ⟨(set_clear_roundtrip t0 r0 bp0).1 0 tA rA rfl,
   (set_clear_roundtrip t0 r0 bp0).2 2 (by decide) (by decide)⟩

/-- C10: `clear_hardware_breakpoint` with an index at or beyond N_DR = 4
panics through out-of-bounds slot indexing instead of returning an error. -/
theorem clear_hardware_breakpoint_out_of_range
    (t : LinuxTarget) (r : URegs) (index : Nat)
    (h : SUPPORTED_HARDWARE_BREAKPOINTS ≤ index) :
    clear_hardware_breakpoint t r index = ClearOutcome.panicked := by
  unfold clear_hardware_breakpoint
  rw [dif_neg]
  rw [t.hb_len]
  omega

/-- Witness for C10: index 5 on a fresh target panics. -/
theorem clear_hardware_breakpoint_out_of_range_witness :
    SUPPORTED_HARDWARE_BREAKPOINTS ≤ 5 ∧
    clear_hardware_breakpoint t0 r0 5 = ClearOutcome.panicked :=
  ⟨by decide, clear_hardware_breakpoint_out_of_range t0 r0 5 (by decide)⟩

/-- Poking register k then peeking k yields the poked value. -/
theorem pokeuser_self (r : URegs) (k v : Nat) : pokeuser r k v k = v := by
  simp [pokeuser]

/-- Poking register k leaves every other register unchanged. -/
theorem pokeuser_other (r : URegs) (k v j : Nat) (h : j ≠ k) : pokeuser r k v j = r j := by
  simp [pokeuser, h]

/-- The value `n &&& (1 <<< i)` is nonzero exactly when bit i of n is set. -/
theorem and_shift_ne_zero_iff (n i : Nat) :
    n &&& (1 <<< i) ≠ 0 ↔ n.testBit i = true := by
  constructor
  · intro h
    by_contra hb
    apply h
    apply Nat.zero_of_testBit_eq_false
    intro k
    rw [Nat.testBit_and]
    by_cases hk : k = i
    · subst hk
      have hb2 : n.testBit k = false := by
        cases hnb : n.testBit k
        · rfl
        · exact absurd hnb hb
      simp [hb2]
    · have h2 : (1 <<< i).testBit k = false := by
        rw [Nat.shiftLeft_eq, one_mul]
        exact Nat.testBit_two_pow_of_ne (fun he => hk he.symm)
      simp [h2]
  · intro h hz
    have h1 : (n &&& (1 <<< i)).testBit i = true := by
      rw [Nat.testBit_and, h]
      simp [Nat.shiftLeft_eq, Nat.testBit_two_pow_self]
    rw [hz] at h1
    simp at h1

/-- The loop condition of `is_hardware_breakpoint_triggered`, in the
spec's language: bit i of the peeked DR6 is set and slot i is occupied. -/
theorem trigCond_iff (t : LinuxTarget) (d i : Nat) :
    trigCond t d i = true ↔
      (d.testBit i = true ∧ (t.hardware_breakpoints.getD i none).isSome = true) := by
  unfold trigCond
  rw [Bool.and_eq_true, bne_iff_ne]
  exact and_congr_left' (and_shift_ne_zero_iff d i)

/-- Clearing one bit with the masked complement, bit by bit. -/
theorem clear_bit_testBit (d i k : Nat) (hi : i < 64) (hd : d < 2 ^ 64) :
    (d &&& (mask64 ^^^ (1 <<< i))).testBit k = (d.testBit k && !(k == i)) := by
  rw [Nat.testBit_and, Nat.testBit_xor, Nat.shiftLeft_eq, one_mul,
    show mask64 = 2 ^ 64 - 1 from rfl, Nat.testBit_two_pow_sub_one]
  rcases Nat.lt_or_ge k 64 with hk | hk
  · by_cases hki : k = i
    · subst hki
      simp [hk, Nat.testBit_two_pow_self]
    · rw [Nat.testBit_two_pow_of_ne (fun he => hki he.symm)]
      simp [hk, hki]
  · have hdk : d.testBit k = false :=
      Nat.testBit_eq_false_of_lt (lt_of_lt_of_le hd (Nat.pow_le_pow_right (by omega) hk))
    simp [hdk]

/-- Computation of `is_hardware_breakpoint_triggered` unrolled over the four slots. -/
theorem is_triggered_eq (t : LinuxTarget) (r : URegs) :
    is_hardware_breakpoint_triggered t r =
      if trigCond t (r 6) 0 then (some 0, pokeuser r 6 ((r 6) &&& (mask64 ^^^ (1 <<< 0))))
      else if trigCond t (r 6) 1 then (some 1, pokeuser r 6 ((r 6) &&& (mask64 ^^^ (1 <<< 1))))
      else if trigCond t (r 6) 2 then (some 2, pokeuser r 6 ((r 6) &&& (mask64 ^^^ (1 <<< 2))))
      else if trigCond t (r 6) 3 then (some 3, pokeuser r 6 ((r 6) &&& (mask64 ^^^ (1 <<< 3))))
      else (none, r) := by
  show triggered_loop t r (r 6) [0, 1, 2, 3] = _
  simp only [triggered_loop]

/-- C3: `is_hardware_breakpoint_triggered` returns Some(i) for the lowest
index i whose DR6 status bit is set and whose slot is occupied, and writes
DR6 back with exactly that bit cleared; it returns None when no occupied
slot has a set status bit, and then the register state is not written. -/
theorem is_hardware_breakpoint_triggered_lowest (t : LinuxTarget) (r : URegs) :
    (∀ i, (is_hardware_breakpoint_triggered t r).1 = some i →
      ((r 6).testBit i = true ∧ (t.hardware_breakpoints.getD i none).isSome = true) ∧
      (∀ j, j < i →
        ¬((r 6).testBit j = true ∧ (t.hardware_breakpoints.getD j none).isSome = true)) ∧
      (is_hardware_breakpoint_triggered t r).2 6 = (r 6) &&& (mask64 ^^^ (1 <<< i)) ∧
      (r 6 < 2 ^ 64 →
        ∀ k, ((is_hardware_breakpoint_triggered t r).2 6).testBit k =
          ((r 6).testBit k && !(k == i)))) ∧
    ((is_hardware_breakpoint_triggered t r).1 = none →
      (is_hardware_breakpoint_triggered t r).2 = r ∧
      ∀ i, i < SUPPORTED_HARDWARE_BREAKPOINTS →
        ¬((r 6).testBit i = true ∧ (t.hardware_breakpoints.getD i none).isSome = true)) := by
  have hcf : ∀ j, trigCond t (r 6) j = false →
      ¬((r 6).testBit j = true ∧ (t.hardware_breakpoints.getD j none).isSome = true) := by
    intro j hj hcontra
    rw [(trigCond_iff t (r 6) j).mpr hcontra] at hj
    exact Bool.noConfusion hj
  constructor
  · intro i hi
    by_cases c0 : trigCond t (r 6) 0 = true
    · rw [is_triggered_eq, if_pos c0] at hi ⊢
      obtain rfl : (0 : Nat) = i := by simpa using hi
      refine ⟨(trigCond_iff t (r 6) 0).mp c0, fun j hj => absurd hj (by omega), ?_, ?_⟩
      · simp [pokeuser]
      · intro hlt k
        show (pokeuser r 6 ((r 6) &&& (mask64 ^^^ (1 <<< 0))) 6).testBit k
            = ((r 6).testBit k && !(k == 0))
        rw [pokeuser_self]
        exact clear_bit_testBit (r 6) 0 k (by omega) hlt
    · by_cases c1 : trigCond t (r 6) 1 = true
      · rw [is_triggered_eq, if_neg c0, if_pos c1] at hi ⊢
        obtain rfl : (1 : Nat) = i := by simpa using hi
        refine ⟨(trigCond_iff t (r 6) 1).mp c1, ?_, ?_, ?_⟩
        · intro j hj
          obtain rfl : j = 0 := by omega
          exact hcf 0 (Bool.eq_false_iff.mpr c0)
        · simp [pokeuser]
        · intro hlt k
          show (pokeuser r 6 ((r 6) &&& (mask64 ^^^ (1 <<< 1))) 6).testBit k
              = ((r 6).testBit k && !(k == 1))
          rw [pokeuser_self]
          exact clear_bit_testBit (r 6) 1 k (by omega) hlt
      · by_cases c2 : trigCond t (r 6) 2 = true
        · rw [is_triggered_eq, if_neg c0, if_neg c1, if_pos c2] at hi ⊢
          obtain rfl : (2 : Nat) = i := by simpa using hi
          refine ⟨(trigCond_iff t (r 6) 2).mp c2, ?_, ?_, ?_⟩
          · intro j hj
            have hj01 : j = 0 ∨ j = 1 := by omega
            rcases hj01 with rfl | rfl
            · exact hcf 0 (Bool.eq_false_iff.mpr c0)
            · exact hcf 1 (Bool.eq_false_iff.mpr c1)
          · simp [pokeuser]
          · intro hlt k
            show (pokeuser r 6 ((r 6) &&& (mask64 ^^^ (1 <<< 2))) 6).testBit k
                = ((r 6).testBit k && !(k == 2))
            rw [pokeuser_self]
            exact clear_bit_testBit (r 6) 2 k (by omega) hlt
        · by_cases c3 : trigCond t (r 6) 3 = true
          · rw [is_triggered_eq, if_neg c0, if_neg c1, if_neg c2, if_pos c3] at hi ⊢
            obtain rfl : (3 : Nat) = i := by simpa using hi
            refine ⟨(trigCond_iff t (r 6) 3).mp c3, ?_, ?_, ?_⟩
            · intro j hj
              have hj012 : j = 0 ∨ j = 1 ∨ j = 2 := by omega
              rcases hj012 with rfl | rfl | rfl
              · exact hcf 0 (Bool.eq_false_iff.mpr c0)
              · exact hcf 1 (Bool.eq_false_iff.mpr c1)
              · exact hcf 2 (Bool.eq_false_iff.mpr c2)
            · simp [pokeuser]
            · intro hlt k
              show (pokeuser r 6 ((r 6) &&& (mask64 ^^^ (1 <<< 3))) 6).testBit k
                  = ((r 6).testBit k && !(k == 3))
              rw [pokeuser_self]
              exact clear_bit_testBit (r 6) 3 k (by omega) hlt
          · rw [is_triggered_eq, if_neg c0, if_neg c1, if_neg c2, if_neg c3] at hi
            simp at hi
  · intro hn
    by_cases c0 : trigCond t (r 6) 0 = true
    · rw [is_triggered_eq, if_pos c0] at hn
      simp at hn
    · by_cases c1 : trigCond t (r 6) 1 = true
      · rw [is_triggered_eq, if_neg c0, if_pos c1] at hn
        simp at hn
      · by_cases c2 : trigCond t (r 6) 2 = true
        · rw [is_triggered_eq, if_neg c0, if_neg c1, if_pos c2] at hn
          simp at hn
        · by_cases c3 : trigCond t (r 6) 3 = true
          · rw [is_triggered_eq, if_neg c0, if_neg c1, if_neg c2, if_pos c3] at hn
            simp at hn
          · rw [is_triggered_eq, if_neg c0, if_neg c1, if_neg c2, if_neg c3]
            refine ⟨rfl, ?_⟩
            intro i hi4
            have hi0123 : i = 0 ∨ i = 1 ∨ i = 2 ∨ i = 3 := by
              have : i < 4 := hi4
              omega
            rcases hi0123 with rfl | rfl | rfl | rfl
            · exact hcf 0 (Bool.eq_false_iff.mpr c0)
            · exact hcf 1 (Bool.eq_false_iff.mpr c1)
            · exact hcf 2 (Bool.eq_false_iff.mpr c2)
            · exact hcf 3 (Bool.eq_false_iff.mpr c3)

/-- Witness for C3: with DR6 = 6 (bits 1 and 2 set) and slots 1, 2
occupied, slot 1 is reported; on an all-empty table nothing is reported
and the registers are untouched. -/
theorem is_hardware_breakpoint_triggered_lowest_witness :
    (is_hardware_breakpoint_triggered tB rT).1 = some 1 ∧
    ((rT 6).testBit 1 = true ∧ (tB.hardware_breakpoints.getD 1 none).isSome = true) ∧
    ((is_hardware_breakpoint_triggered tB rT).2 6).testBit 1 =
      ((rT 6).testBit 1 && !((1 : Nat) == 1)) ∧
    (is_hardware_breakpoint_triggered t0 rT).1 = none ∧
    (is_hardware_breakpoint_triggered t0 rT).2 = rT :=
  ⟨rfl, ((is_hardware_breakpoint_triggered_lowest tB rT).1 1 rfl).1,
   ((is_hardware_breakpoint_triggered_lowest tB rT).1 1 rfl).2.2.2 (by decide) 1,
   rfl, ((is_hardware_breakpoint_triggered_lowest t0 rT).2 rfl).1⟩

/-- C4: `is_hardware_breakpoint_triggered` writes no debug register other
than DR6, and both its result and the DR6 value it leaves behind depend
only on DR6 and the slot table (it reads no other debug register). -/
theorem is_hardware_breakpoint_triggered_frame (t : LinuxTarget) (r : URegs) :
    (∀ k, k ≠ 6 → (is_hardware_breakpoint_triggered t r).2 k = r k) ∧
    (∀ t2 r2, t2.hardware_breakpoints = t.hardware_breakpoints → r2 6 = r 6 →
      (is_hardware_breakpoint_triggered t2 r2).1 =
        (is_hardware_breakpoint_triggered t r).1 ∧
      (is_hardware_breakpoint_triggered t2 r2).2 6 =
        (is_hardware_breakpoint_triggered t r).2 6) := by
  constructor
  · intro k hk
    rw [is_triggered_eq]
    split_ifs <;> simp [pokeuser, hk]
  · intro t2 r2 ht hr
    have hc : ∀ i, trigCond t2 (r2 6) i = trigCond t (r 6) i := by
      intro i
      unfold trigCond
      rw [ht, hr]
    rw [is_triggered_eq t r, is_triggered_eq t2 r2, hc 0, hc 1, hc 2, hc 3, hr]
    constructor
    · split_ifs <;> rfl
    · split_ifs <;> simp [pokeuser, hr]

/-- Witness for C4: DR0 is untouched by a triggering call, and a register
file equal on DR6 but different elsewhere gives the same result. -/
theorem is_hardware_breakpoint_triggered_frame_witness :
    (0 : Nat) ≠ 6 ∧
    (is_hardware_breakpoint_triggered tB rT).2 0 = rT 0 ∧
    rT2 6 = rT 6 ∧
    (is_hardware_breakpoint_triggered tB rT2).1 =
      (is_hardware_breakpoint_triggered tB rT).1 ∧
    (is_hardware_breakpoint_triggered tB rT2).2 6 =
      (is_hardware_breakpoint_triggered tB rT).2 6 :=
  ⟨by decide, (is_hardware_breakpoint_triggered_frame tB rT).1 0 (by decide), rfl,
   ((is_hardware_breakpoint_triggered_frame tB rT).2 tB rT2 rfl rfl).1,
   ((is_hardware_breakpoint_triggered_frame tB rT).2 tB rT2 rfl rfl).2⟩

/-- C5: with every tracer primitive succeeding, the trampoline writes the
syscall number into rax and the six arguments into rdi, rsi, rdx, r10, r8,
r9 (kernel ABI), leaves rip and all remaining registers alone, pokes at
the original rip a word whose low two bytes are the syscall opcode 0f 05
and touches no other word, returns the post-step rax, and finally restores
the original instruction word at rip and the complete original register
set. -/
theorem syscall_protocol (stepK : Machine → Machine) (m : Machine)
    (num a1 a2 a3 a4 a5 a6 : Nat) :
    (syscall_armed m num a1 a2 a3 a4 a5 a6).regs.rax = num ∧
    (syscall_armed m num a1 a2 a3 a4 a5 a6).regs.rdi = a1 ∧
    (syscall_armed m num a1 a2 a3 a4 a5 a6).regs.rsi = a2 ∧
    (syscall_armed m num a1 a2 a3 a4 a5 a6).regs.rdx = a3 ∧
    (syscall_armed m num a1 a2 a3 a4 a5 a6).regs.r10 = a4 ∧
    (syscall_armed m num a1 a2 a3 a4 a5 a6).regs.r8 = a5 ∧
    (syscall_armed m num a1 a2 a3 a4 a5 a6).regs.r9 = a6 ∧
    (syscall_armed m num a1 a2 a3 a4 a5 a6).regs.rip = m.regs.rip ∧
    (syscall_armed m num a1 a2 a3 a4 a5 a6).regs.other = m.regs.other ∧
    (syscall_armed m num a1 a2 a3 a4 a5 a6).mem m.regs.rip % 2 ^ 8 = 0x0f ∧
    (syscall_armed m num a1 a2 a3 a4 a5 a6).mem m.regs.rip / 2 ^ 8 % 2 ^ 8 = 0x05 ∧
    (∀ x, x ≠ m.regs.rip →
      (syscall_armed m num a1 a2 a3 a4 a5 a6).mem x = m.mem x) ∧
    (syscall stepK m num a1 a2 a3 a4 a5 a6).1 =
      (stepK (syscall_armed m num a1 a2 a3 a4 a5 a6)).regs.rax ∧
    (syscall stepK m num a1 a2 a3 a4 a5 a6).2.regs = m.regs ∧
    (syscall stepK m num a1 a2 a3 a4 a5 a6).2.mem m.regs.rip = m.mem m.regs.rip ∧
    (∀ x, x ≠ m.regs.rip →
      (syscall stepK m num a1 a2 a3 a4 a5 a6).2.mem x =
        (stepK (syscall_armed m num a1 a2 a3 a4 a5 a6)).mem x) := by
  refine ⟨rfl, rfl, rfl, rfl, rfl, rfl, rfl, rfl, rfl, ?_, ?_, ?_, rfl, rfl, ?_, ?_⟩
  · simp [syscall_armed, syscall_regs, pokeWord, SYSCALL_INSN]
  · simp [syscall_armed, syscall_regs, pokeWord, SYSCALL_INSN]
  · intro x hx
    simp [syscall_armed, syscall_regs, pokeWord, hx]
  · simp [syscall, syscall_armed, syscall_regs, pokeWord]
  · intro x hx
    simp [syscall, syscall_armed, syscall_regs, pokeWord, hx]

/-- Witness for C5: a concrete machine, stepped by the identity kernel. -/
theorem syscall_protocol_witness :
    (0 : Nat) ≠ m0.regs.rip ∧
    (syscall_armed m0 60 1 2 3 4 5 6).mem 0 = m0.mem 0 ∧
    (syscall id m0 60 1 2 3 4 5 6).2.mem 0 =
      (id (syscall_armed m0 60 1 2 3 4 5 6)).mem 0 ∧
    (syscall id m0 60 1 2 3 4 5 6).2.regs = m0.regs := by
  obtain ⟨h1, h2, h3, h4, h5, h6, h7, h8, h9, h10, h11, h12, h13, h14, h15, h16⟩ :=
    syscall_protocol id m0 60 1 2 3 4 5 6
  exact ⟨by decide, h12 0 (by decide), h16 0 (by decide), h14⟩

/-- C6: `launch` arms the kill-on-exit tracer option unconditionally,
`attach` arms it exactly when `options.kill_on_exit` is set, and both
return the fresh target together with the initial wait-status. -/
theorem launch_attach_kill_on_exit (pid status : Nat) (options : AttachOptions) :
    TraceEvent.setOptionsExitKill ∈ (launch pid status).2 ∧
    (TraceEvent.setOptionsExitKill ∈ (attach pid status options).2 ↔
      options.kill_on_exit = true) ∧
    (launch pid status).1 = (LinuxTarget.new pid, status) ∧
    (attach pid status options).1 = (LinuxTarget.new pid, status) := by
  refine ⟨by simp [launch, kill_on_exit_events], ?_, rfl, rfl⟩
  cases hko : options.kill_on_exit
  · simp [attach, hko]
  · simp [attach, hko, kill_on_exit_events]

/-- C7: the four permission flags are derived positionally from the first
four characters of the perms string compared against r, w, x, p; an
unexpected character, or a string too short, yields false for the flag,
never an error. -/
theorem memory_maps_perm_flags (perms : List Char) :
    map_perm_flags perms =
      (perms[0]? == some 'r', perms[1]? == some 'w',
        perms[2]? == some 'x', perms[3]? == some 'p') ∧
    (perms[0]? ≠ some 'r' → (map_perm_flags perms).1 = false) ∧
    (perms[1]? ≠ some 'w' → (map_perm_flags perms).2.1 = false) ∧
    (perms[2]? ≠ some 'x' → (map_perm_flags perms).2.2.1 = false) ∧
    (perms[3]? ≠ some 'p' → (map_perm_flags perms).2.2.2 = false) ∧
    (perms.length < 4 → (map_perm_flags perms).2.2.2 = false) := by
  have he : map_perm_flags perms =
      (perms[0]? == some 'r', perms[1]? == some 'w',
        perms[2]? == some 'x', perms[3]? == some 'p') := by
    rcases perms with _ | ⟨a, _ | ⟨b, _ | ⟨c, _ | ⟨d, rest⟩⟩⟩⟩ <;>
      simp [map_perm_flags, permsNext]
  refine ⟨he, ?_, ?_, ?_, ?_, ?_⟩
  · intro h
    rw [he]
    exact beq_eq_false_iff_ne.mpr h
  · intro h
    rw [he]
    exact beq_eq_false_iff_ne.mpr h
  · intro h
    rw [he]
    exact beq_eq_false_iff_ne.mpr h
  · intro h
    rw [he]
    exact beq_eq_false_iff_ne.mpr h
  · intro h
    rw [he]
    show (perms[3]? == some 'p') = false
    rw [List.getElem?_eq_none (by omega)]
    rfl

/-- Witness for C7: the perms string r-xs gives (true, false, true, false),
and a one-character string gives false for the private flag. -/
theorem memory_maps_perm_flags_witness :
    map_perm_flags ['r', '-', 'x', 's'] = (true, false, true, false) ∧
    (['r', '-', 'x', 's'][1]? ≠ some 'w') ∧
    (map_perm_flags ['r', '-', 'x', 's']).2.1 = false ∧
    ['r'].length < 4 ∧
    (map_perm_flags ['r']).2.2.2 = false := by
  refine ⟨by decide, by decide, ?_, by decide, ?_⟩
  · exact (memory_maps_perm_flags ['r', '-', 'x', 's']).2.2.1 (by decide)
  · exact (memory_maps_perm_flags ['r']).2.2.2.2.2 (by decide)

/-- C8: `name()` returns Ok(None) exactly on NotFound or Incomplete stat
failures, Ok(Some(comm)) on success, and propagates every other stat
error unchanged. -/
theorem thread_name_best_effort (stat : Except ProcError TaskStat) :
    (LinuxThread.name stat = Except.ok none ↔
      stat = Except.error ProcError.notFound ∨
      stat = Except.error ProcError.incomplete) ∧
    (∀ t_stat, stat = Except.ok t_stat →
      LinuxThread.name stat = Except.ok (some t_stat.comm)) ∧
    (∀ e, e ≠ ProcError.notFound → e ≠ ProcError.incomplete →
      stat = Except.error e → LinuxThread.name stat = Except.error e) := by
  refine ⟨?_, ?_, ?_⟩
  · cases stat with
    | ok t => simp [LinuxThread.name]
    | error e => cases e <;> simp [LinuxThread.name]
  · intro ts h
    subst h
    rfl
  · intro e h1 h2 h3
    subst h3
    cases e
    · exact absurd rfl h1
    · rfl
    · exact absurd rfl h2
    · rfl
    · rfl

/-- Witness for C8: NotFound swallowed, success returns the comm value,
an Io error propagates. -/
theorem thread_name_best_effort_witness :
    LinuxThread.name (Except.error ProcError.notFound) = Except.ok none ∧
    LinuxThread.name (Except.ok ⟨"worker"⟩) = Except.ok (some "worker") ∧
    LinuxThread.name (Except.error ProcError.ioError) =
      Except.error ProcError.ioError := by
  refine ⟨?_, ?_, ?_⟩
  · exact (thread_name_best_effort (Except.error ProcError.notFound)).1.mpr (Or.inl rfl)
  · exact (thread_name_best_effort (Except.ok ⟨"worker"⟩)).2.1 ⟨"worker"⟩ rfl
  · exact (thread_name_best_effort (Except.error ProcError.ioError)).2.2
      ProcError.ioError (by decide) (by decide) rfl

/-- C9: on a named symbol the first `name()` call computes the demangled
form and stores it in the cache, every later call returns the stored value
(equal to the demangling of `orig_name()`), and on a nameless symbol
`name()` returns None. -/
theorem symbol_name_demangle_cached (demangle : String → String) (m : String)
    (s : Symbol) :
    (Symbol.name demangle (Symbol.fromObject (some m))).1 = some (demangle m) ∧
    ((Symbol.name demangle (Symbol.fromObject (some m))).2).demangled_name =
      some (demangle m) ∧
    (Symbol.name demangle ((Symbol.name demangle s).2)).1 =
      (Symbol.name demangle s).1 ∧
    (Symbol.name demangle ((Symbol.name demangle s).2)).2 =
      (Symbol.name demangle s).2 ∧
    (Symbol.name demangle (Symbol.fromObject (some m))).1 =
      (Symbol.origName (Symbol.fromObject (some m))).map demangle ∧
    (Symbol.name demangle (Symbol.fromObject none)).1 = none := by
  have hstab : ∀ u : Symbol,
      (Symbol.name demangle ((Symbol.name demangle u).2)).1 =
        (Symbol.name demangle u).1 ∧
      (Symbol.name demangle ((Symbol.name demangle u).2)).2 =
        (Symbol.name demangle u).2 := by
    intro u
    rcases u with ⟨dn, sn⟩
    cases sn with
    | none => exact ⟨rfl, rfl⟩
    | some mm =>
        cases dn with
        | none => exact ⟨rfl, rfl⟩
        | some d => exact ⟨rfl, rfl⟩
  exact ⟨rfl, rfl, (hstab s).1, (hstab s).2, rfl, rfl⟩
